import Mathlib

/-!
Verification of the voice-client core of the DPP repository
(src/include/dpp/discordvoiceclient.h).

The repository sources contain only the class declaration
(discordvoiceclient.h); the member function bodies are not under src/.
The definitions below are therefore modelled from the specification
(spec.md) and from the doc comments of the header, as noted on each
definition.  Machine integers are modelled as Nat with explicit
reduction modulo 2^16 / 2^32 where the code wraps.
-/

namespace DPP

/-- The reserved 16-bit track marker value, from the source macro
AUDIO_TRACK_MARKER in discordvoiceclient.h line 69. -/
def AUDIO_TRACK_MARKER : Nat := 0xFFFF

/-- Modelled from the spec: the two-byte in-band sentinel buffer entry that
represents a track marker inside the outbound packet buffer (glossary: a
track marker is a sentinel in the outbound buffer; the value is the
AUDIO_TRACK_MARKER constant, stored as its two bytes). -/
def track_marker_entry : List Nat := [AUDIO_TRACK_MARKER % 256, AUDIO_TRACK_MARKER / 256]

/-- Whether a buffer entry is the in-band track marker sentinel (inspected
by comparing the entry bytes with the sentinel). -/
def is_track_marker (e : List Nat) : Bool := e == track_marker_entry

/-- Big-endian two-byte encoding of a 16-bit value. -/
def be16 (n : Nat) : List Nat := [(n % 65536) / 256, n % 256]

/-- Big-endian four-byte encoding of a 32-bit value. -/
def be32 (n : Nat) : List Nat :=
  [(n % 4294967296) / 16777216, (n / 65536) % 256, (n / 256) % 256, n % 256]

/-- Modelled from the spec (section 3 RTP-style Packet, section 6 wire
format): version/flags byte, payload-type byte, 16-bit big-endian sequence,
32-bit big-endian timestamp, 32-bit big-endian SSRC, then the payload
bytes.  The codec and the encryption primitive are external collaborators
treated as opaque by the spec, so the payload is carried as given bytes. -/
def rtp_packet (seq ts ssrc : Nat) (payload : List Nat) : List Nat :=
  0x80 :: 0x78 :: (be16 seq ++ be32 ts ++ be32 ssrc ++ payload)

/-- Number of in-band track marker sentinels in a buffer. -/
def countMarkers (buf : List (List Nat)) : Nat := buf.countP is_track_marker

/-- Modelled from the spec: the mutable state of one discord_voice_client
session.  The fields follow the member declarations of
discordvoiceclient.h (message_queue, outbuf, inbuf, paused, fd, ssrc,
secret_key, sequence, timestamp, sending, tracks, track_meta,
terminating); the function bodies that mutate them are not in src/ and
are modelled from spec.md. -/
structure VoiceClient where
  message_queue : List String
  outbuf : List (List Nat)
  inbuf : List (List Nat)
  paused : Bool
  fd : Int
  connected : Bool
  ssrc : Nat
  secret_key : Option (List Nat)
  sequence : Nat
  timestamp : Nat
  sending : Bool
  tracks : Nat
  track_meta : List String
  terminating : Bool
deriving Repr, DecidableEq

/-- Modelled from the spec (4.4 queue_message and header lines 252-260):
append a control message to the tail of the message queue, or push it to
the head when to_front is true. -/
def QueueMessage (st : VoiceClient) (j : String) (to_front : Bool) : VoiceClient :=
  if to_front then { st with message_queue := j :: st.message_queue }
  else { st with message_queue := st.message_queue ++ [j] }

/-- The urgent speaking state-update control message emitted on the
false-to-true transition of the sending flag (spec 4.3; abstract payload,
the control-frame text format is an external concern). -/
def speaking_message : String := "speaking"

/-- Number of audio sample instants in a PCM frame of the given byte
length: 4 bytes per sample instant (two interleaved 16-bit channels,
header lines 398-406). -/
def samples_in_frame (length : Nat) : Nat := length / 4

/-- Modelled from the spec (4.3 send_audio precondition): the length is a
positive multiple of 4 and at most 11520 bytes. -/
def send_audio_valid (length : Nat) : Bool :=
  length % 4 == 0 && length != 0 && length <= 11520

/-- Modelled from the spec (4.3 send_audio): on a valid length, assemble
one RTP-style packet with the current sequence and timestamp, append it to
the outbound buffer, advance sequence by 1 mod 2^16 and timestamp by the
frame sample count mod 2^32, set the sending flag, and queue the urgent
speaking message when the flag was previously clear; on an invalid length
the call is rejected and the state is returned unchanged.  Returns the new
state and whether the call was accepted. -/
def send_audio (st : VoiceClient) (audio_data : List Nat) (length : Nat)
    (use_opus : Bool) : VoiceClient × Bool :=
  if send_audio_valid length then
    let st1 := if st.sending then st else QueueMessage st speaking_message true
    ({ st1 with
        outbuf := st1.outbuf ++ [rtp_packet st.sequence st.timestamp st.ssrc audio_data],
        sequence := (st.sequence + 1) % 65536,
        timestamp := (st.timestamp + samples_in_frame length) % 4294967296,
        sending := true }, true)
  else (st, false)

/-- Modelled from the spec (4.3 insert_marker): append the in-band marker
sentinel to the buffer tail, count it, and record the metadata string. -/
def insert_marker (st : VoiceClient) (metadata : String) : VoiceClient :=
  { st with outbuf := st.outbuf ++ [track_marker_entry],
            tracks := st.tracks + 1,
            track_meta := st.track_meta ++ [metadata] }

/-- Modelled from the spec (4.3 stop_audio): clear the buffer, the marker
count and the metadata, and reset the sending flag. -/
def stop_audio (st : VoiceClient) : VoiceClient :=
  { st with outbuf := [], tracks := 0, track_meta := [], sending := false }

/-- Modelled from the spec (4.3 pause_audio): toggle the paused flag only;
buffer contents are untouched. -/
def pause_audio (st : VoiceClient) (pause : Bool) : VoiceClient :=
  { st with paused := pause }

/-- Modelled from the spec (4.3 skip_to_next_marker): remove packets from
the buffer head up to and including the next marker sentinel; when no
marker exists this drains the whole buffer and coincides with
stop_audio. -/
def skip_to_next_marker (st : VoiceClient) : VoiceClient :=
  match st.outbuf.dropWhile (fun e => !is_track_marker e) with
  | [] => stop_audio st
  | _ :: rest =>
      { st with outbuf := rest, tracks := st.tracks - 1, track_meta := st.track_meta.drop 1 }

/-- get_tracks_remaining, from the header doc (lines 448-456: markers plus
one) together with the special case on the tracks field doc (lines
174-180: an empty buffer holds zero tracks). -/
def get_tracks_remaining (st : VoiceClient) : Nat :=
  if st.outbuf.isEmpty then 0 else st.tracks + 1

/-- is_ready, from the header doc (lines 333-339): the client is ready
exactly when it has a secret key. -/
def is_ready (st : VoiceClient) : Bool := st.secret_key.isSome

/-- Modelled from the spec (4.1 session-description handling): store the
negotiated 32-byte secret key; this is the point is_ready becomes true. -/
def set_secret_key (st : VoiceClient) (k : List Nat) : VoiceClient :=
  { st with secret_key := some k }

/-- Modelled from the spec: session termination; the terminating flag is
set and the owned secret key buffer is released. -/
def terminate (st : VoiceClient) : VoiceClient :=
  { st with terminating := true, secret_key := none }

/-- Modelled from the spec (4.2 wants_write): the socket descriptor when
the outbound buffer is non-empty and not paused, otherwise -1. -/
def WantWrite (st : VoiceClient) : Int :=
  if !st.paused && !st.outbuf.isEmpty then st.fd else -1

/-- Modelled from the spec (4.2 wants_read): the socket descriptor
whenever the session is connected, independent of the paused flag. -/
def WantRead (st : VoiceClient) : Int :=
  if st.connected then st.fd else -1

/-- Outcome of the single non-blocking UDP send attempt performed by
WriteReady: bytes sent, would-block, or a hard error code. -/
inductive SendOutcome where
  | ok (bytes : Nat)
  | wouldBlock
  | hardError (code : Nat)
deriving Repr, DecidableEq

/-- Modelled from the spec (4.2 on_writable, header lines 229-235): take
the head item of the outbound buffer and perform one non-blocking send,
whose result is the given outcome; on success the head is popped, on
would-block the head is kept for retry, on a hard error the error is
logged and the head is dropped.  Returns the new state and an optional
error log line. -/
def WriteReady (st : VoiceClient) (outcome : SendOutcome) : VoiceClient × Option String :=
  match st.outbuf with
  | [] => (st, none)
  | _ :: rest =>
    match outcome with
    | .ok _ => ({ st with outbuf := rest }, none)
    | .wouldBlock => (st, none)
    | .hardError _ => ({ st with outbuf := rest }, some "error sending UDP packet")

/-- Modelled from the spec: the freshly constructed session state (empty
buffers and queue, counters zero, no secret key, not paused, socket not
yet open). -/
def init_state : VoiceClient :=
  { message_queue := [], outbuf := [], inbuf := [], paused := false, fd := -1,
    connected := false, ssrc := 0, secret_key := none, sequence := 0, timestamp := 0,
    sending := false, tracks := 0, track_meta := [], terminating := false }

/-- One application of an outbound-audio-buffer operation of spec 4.3:
enqueue (send_audio, insert_marker), skip, clear, pause. -/
inductive BufStep : VoiceClient → VoiceClient → Prop where
  | send (st : VoiceClient) (a : List Nat) (l : Nat) (u : Bool) :
      BufStep st (send_audio st a l u).1
  | marker (st : VoiceClient) (m : String) : BufStep st (insert_marker st m)
  | stop (st : VoiceClient) : BufStep st (stop_audio st)
  | skip (st : VoiceClient) : BufStep st (skip_to_next_marker st)
  | pause (st : VoiceClient) (b : Bool) : BufStep st (pause_audio st b)

/-- Buffer states reachable from the initial state by the spec 4.3
operations. -/
inductive BufReachable : VoiceClient → Prop where
  | init : BufReachable init_state
  | step (st st' : VoiceClient) : BufReachable st → BufStep st st' → BufReachable st'

/-- One application of any modelled session operation other than
termination. -/
inductive Step : VoiceClient → VoiceClient → Prop where
  | buf (st st' : VoiceClient) : BufStep st st' → Step st st'
  | queue (st : VoiceClient) (j : String) (f : Bool) : Step st (QueueMessage st j f)
  | write (st : VoiceClient) (o : SendOutcome) : Step st (WriteReady st o).1
  | key (st : VoiceClient) (k : List Nat) : Step st (set_secret_key st k)

/-- A session operation together with its arguments, used to talk about
traces of operations. -/
inductive VoiceOp where
  | sendAudio (audio : List Nat) (length : Nat) (use_opus : Bool)
  | insertMarker (meta : String)
  | stopAudio
  | skipMarker
  | pauseAudio (b : Bool)
  | queueMsg (j : String) (front : Bool)
  | writeReady (o : SendOutcome)
  | setKey (k : List Nat)

/-- Apply one session operation to a state. -/
def applyOp (st : VoiceClient) : VoiceOp → VoiceClient
  | .sendAudio a l u => (send_audio st a l u).1
  | .insertMarker m => insert_marker st m
  | .stopAudio => stop_audio st
  | .skipMarker => skip_to_next_marker st
  | .pauseAudio b => pause_audio st b
  | .queueMsg j f => QueueMessage st j f
  | .writeReady o => (WriteReady st o).1
  | .setKey k => set_secret_key st k

/-- Whether the given operation, applied to the given state, emits the
urgent speaking control message: only a send_audio call with a valid
length while the sending flag is clear does (spec 4.3). -/
def speaksOnStep (st : VoiceClient) : VoiceOp → Bool
  | .sendAudio _ l _ => send_audio_valid l && !st.sending
  | _ => false

/-- Number of speaking control messages emitted along a trace of
operations started from a state. -/
def speakCount (st : VoiceClient) : List VoiceOp → Nat
  | [] => 0
  | op :: ops => (if speaksOnStep st op then 1 else 0) + speakCount (applyOp st op) ops

/-- Number of false-to-true transitions of the sending flag along a trace
of operations started from a state. -/
def risingCount (st : VoiceClient) : List VoiceOp → Nat
  | [] => 0
  | op :: ops =>
      (if !st.sending && (applyOp st op).sending then 1 else 0)
        + risingCount (applyOp st op) ops

/-! Helper lemmas on dropWhile and countP, and the marker-count
invariant of the buffer operations. -/

theorem countP_zero_dropWhile {α : Type} (p : α → Bool) (l : List α)
    (h : l.countP p = 0) : l.dropWhile (fun a => !p a) = [] := by
  induction l with
  | nil => rfl
  | cons x xs ih =>
    rw [List.countP_cons] at h
    have hx : p x = false := by
      cases hpx : p x
      · rfl
      · rw [hpx] at h; simp at h
    have hxs : xs.countP p = 0 := by
      rw [hx] at h; simpa using h
    rw [List.dropWhile_cons]
    simp only [hx, Bool.not_false, if_pos]
    exact ih hxs

theorem countP_dropWhile_not {α : Type} (p : α → Bool) (l : List α) :
    (l.dropWhile (fun a => !p a)).countP p = l.countP p := by
  induction l with
  | nil => rfl
  | cons x xs ih =>
    cases hpx : p x with
    | true => simp [List.dropWhile_cons, hpx]
    | false => simp [List.dropWhile_cons, hpx, List.countP_cons, ih]

theorem head_dropWhile_not {α : Type} (p : α → Bool) (l : List α) (x : α) (rest : List α)
    (h : l.dropWhile (fun a => !p a) = x :: rest) : p x = true := by
  induction l with
  | nil => simp [List.dropWhile] at h
  | cons y ys ih =>
    cases hpy : p y with
    | true =>
      rw [List.dropWhile_cons] at h
      simp only [hpy, Bool.not_true, if_neg, Bool.false_eq_true, not_false_iff,
        List.cons.injEq] at h
      rw [← h.1]
      exact hpy
    | false =>
      rw [List.dropWhile_cons] at h
      simp only [hpy, Bool.not_false, if_pos] at h
      exact ih h

theorem rtp_packet_not_marker (seq ts ssrc : Nat) (payload : List Nat) :
    is_track_marker (rtp_packet seq ts ssrc payload) = false := by
  simp [is_track_marker, rtp_packet, track_marker_entry, AUDIO_TRACK_MARKER, be16, be32]

theorem bufStep_preserves_marker_count (st st' : VoiceClient)
    (hs : BufStep st st') (h : st.tracks = countMarkers st.outbuf) :
    st'.tracks = countMarkers st'.outbuf := by
  cases hs with
  | send a l u =>
    by_cases hv : send_audio_valid l = true
    · by_cases hsnd : st.sending = true <;>
        simp [send_audio, QueueMessage, hv, hsnd, countMarkers, List.countP_append,
          List.countP_cons, rtp_packet_not_marker, h]
    · simp [send_audio, hv, h]
  | marker m =>
    have hm : is_track_marker track_marker_entry = true := by decide
    simp [insert_marker, countMarkers, List.countP_append, List.countP_cons, hm, h]
  | stop => simp [stop_audio, countMarkers]
  | skip =>
    cases hdw : st.outbuf.dropWhile (fun e => !is_track_marker e) with
    | nil =>
      simp [skip_to_next_marker, hdw, stop_audio, countMarkers]
    | cons m rest =>
      have hm : is_track_marker m = true := head_dropWhile_not is_track_marker _ _ _ hdw
      have h2 := countP_dropWhile_not is_track_marker st.outbuf
      rw [hdw, List.countP_cons, hm] at h2
      have h3 : rest.countP is_track_marker + 1 = st.outbuf.countP is_track_marker := by
        simpa using h2
      have h4 : st.tracks = st.outbuf.countP is_track_marker := h
      simp [skip_to_next_marker, hdw, countMarkers]
      omega
  | pause b => simpa [pause_audio, countMarkers] using h

theorem bufReachable_marker_count (st : VoiceClient) (h : BufReachable st) :
    st.tracks = countMarkers st.outbuf := by
  induction h with
  | init => rfl
  | step st st' hr hs ih => exact bufStep_preserves_marker_count st st' hs ih

theorem bufStep_secret_key (st st' : VoiceClient) (hs : BufStep st st') :
    st'.secret_key = st.secret_key := by
  cases hs with
  | send a l u =>
    by_cases hv : send_audio_valid l = true
    · by_cases hsnd : st.sending = true <;> simp [send_audio, QueueMessage, hv, hsnd]
    · simp [send_audio, hv]
  | marker m => rfl
  | stop => rfl
  | skip =>
    cases hdw : st.outbuf.dropWhile (fun e => !is_track_marker e) <;>
      simp [skip_to_next_marker, hdw, stop_audio]
  | pause b => rfl

theorem speaksOnStep_eq_rising (st : VoiceClient) (op : VoiceOp) :
    speaksOnStep st op = (!st.sending && (applyOp st op).sending) := by
  cases op with
  | sendAudio a l u =>
    by_cases hv : send_audio_valid l = true
    · by_cases hsnd : st.sending = true <;>
        simp [speaksOnStep, applyOp, send_audio, QueueMessage, hv, hsnd]
    · cases hsnd : st.sending <;>
        simp [speaksOnStep, applyOp, send_audio, hv, hsnd]
  | insertMarker m => cases hsnd : st.sending <;> simp [speaksOnStep, applyOp, insert_marker, hsnd]
  | stopAudio => simp [speaksOnStep, applyOp, stop_audio]
  | skipMarker =>
    cases hdw : st.outbuf.dropWhile (fun e => !is_track_marker e) with
    | nil => simp [speaksOnStep, applyOp, skip_to_next_marker, hdw, stop_audio]
    | cons m rest =>
      cases hsnd : st.sending <;>
        simp [speaksOnStep, applyOp, skip_to_next_marker, hdw, hsnd]
  | pauseAudio b => cases hsnd : st.sending <;> simp [speaksOnStep, applyOp, pause_audio, hsnd]
  | queueMsg j f =>
    by_cases hf : f = true <;> cases hsnd : st.sending <;>
      simp [speaksOnStep, applyOp, QueueMessage, hf, hsnd]
  | writeReady o =>
    cases hb : st.outbuf with
    | nil => cases hsnd : st.sending <;> simp [speaksOnStep, applyOp, WriteReady, hb, hsnd]
    | cons p rest =>
      cases o <;> cases hsnd : st.sending <;>
        simp [speaksOnStep, applyOp, WriteReady, hb, hsnd]
  | setKey k => cases hsnd : st.sending <;> simp [speaksOnStep, applyOp, set_secret_key, hsnd]

theorem speakCount_eq_risingCount (st : VoiceClient) (ops : List VoiceOp) :
    speakCount st ops = risingCount st ops := by
  induction ops generalizing st with
  | nil => rfl
  | cons op ops ih =>
    simp only [speakCount, risingCount, speaksOnStep_eq_rising, ih]

/-! Claim theorems. -/

/-- Claim C1: for every call to send_audio with a length that is a multiple
of 4 in the range 4..11520, exactly one packet is appended to the outbound
audio buffer, the 16-bit sequence counter after the call equals the
counter before the call plus 1 modulo 2^16, and the 32-bit timestamp
counter after the call equals the counter before the call plus the number
of audio samples in the frame modulo 2^32. -/
theorem send_audio_valid_length_effect (st : VoiceClient) (audio : List Nat)
    (length : Nat) (use_opus : Bool)
    (h4 : length % 4 = 0) (hlo : 4 ≤ length) (hhi : length ≤ 11520) :
    (send_audio st audio length use_opus).1.outbuf
        = st.outbuf ++ [rtp_packet st.sequence st.timestamp st.ssrc audio]
    ∧ (send_audio st audio length use_opus).1.outbuf.length = st.outbuf.length + 1
    ∧ (send_audio st audio length use_opus).1.sequence = (st.sequence + 1) % 65536
    ∧ (send_audio st audio length use_opus).1.timestamp
        = (st.timestamp + samples_in_frame length) % 4294967296 := by
  have hv : send_audio_valid length = true := by
    simp [send_audio_valid]
    omega
  by_cases hs : st.sending = true <;>
    simp [send_audio, QueueMessage, hv, hs]

theorem send_audio_valid_length_effect_witness :
    (send_audio init_state [1, 2, 3, 4] 4 true).1.outbuf
        = init_state.outbuf
            ++ [rtp_packet init_state.sequence init_state.timestamp init_state.ssrc [1, 2, 3, 4]]
    ∧ (send_audio init_state [1, 2, 3, 4] 4 true).1.outbuf.length
        = init_state.outbuf.length + 1
    ∧ (send_audio init_state [1, 2, 3, 4] 4 true).1.sequence
        = (init_state.sequence + 1) % 65536
    ∧ (send_audio init_state [1, 2, 3, 4] 4 true).1.timestamp
        = (init_state.timestamp + samples_in_frame 4) % 4294967296 :=
  send_audio_valid_length_effect init_state [1, 2, 3, 4] 4 true (by decide) (by decide)
    (by decide)

/-- Claim C3: for every call to send_audio whose length is not a multiple
of 4 or exceeds 11520 bytes, the call is rejected synchronously and the
whole session state is returned unchanged: no packet is appended and no
counter moves. -/
theorem send_audio_invalid_length_rejected (st : VoiceClient) (audio : List Nat)
    (length : Nat) (use_opus : Bool) (h : length % 4 ≠ 0 ∨ 11520 < length) :
    send_audio st audio length use_opus = (st, false) := by
  have hv : send_audio_valid length = false := by
    simp [send_audio_valid]
    omega
  simp [send_audio, hv]

theorem send_audio_invalid_length_rejected_witness :
    send_audio init_state [1, 2, 3, 4, 5] 5 true = (init_state, false) :=
  send_audio_invalid_length_rejected init_state [1, 2, 3, 4, 5] 5 true (by decide)

/-- Claim C2: when the writable callback WriteReady fires on a non-empty
outbound buffer, it takes the head packet and performs the single
non-blocking send whose result is the given outcome: on success the head
is popped and nothing is logged, on a would-block result the state is
unchanged (the packet is retried on the next writable notification), and
on a hard error an error line is logged and the packet is dropped. -/
theorem write_ready_head_discipline (st : VoiceClient) (p : List Nat)
    (rest : List (List Nat)) (n e : Nat) (h : st.outbuf = p :: rest) :
    (WriteReady st (SendOutcome.ok n)).1.outbuf = rest
    ∧ (WriteReady st (SendOutcome.ok n)).2 = none
    ∧ WriteReady st SendOutcome.wouldBlock = (st, none)
    ∧ (WriteReady st (SendOutcome.hardError e)).1.outbuf = rest
    ∧ (WriteReady st (SendOutcome.hardError e)).2 = some "error sending UDP packet" := by
  simp [WriteReady, h]

theorem write_ready_head_discipline_witness :
    (WriteReady { init_state with outbuf := [[9]] } (SendOutcome.ok 1)).1.outbuf = []
    ∧ (WriteReady { init_state with outbuf := [[9]] } (SendOutcome.ok 1)).2 = none
    ∧ WriteReady { init_state with outbuf := [[9]] } SendOutcome.wouldBlock
        = ({ init_state with outbuf := [[9]] }, none)
    ∧ (WriteReady { init_state with outbuf := [[9]] } (SendOutcome.hardError 13)).1.outbuf = []
    ∧ (WriteReady { init_state with outbuf := [[9]] } (SendOutcome.hardError 13)).2
        = some "error sending UDP packet" :=
  write_ready_head_discipline { init_state with outbuf := [[9]] } [9] [] 1 13 rfl

/-- Claim C4: WantWrite returns the UDP socket descriptor exactly when the
outbound audio buffer is non-empty and the paused flag is clear (in
particular it reports nothing to write while paused), and WantRead
returns the descriptor exactly when the session is connected,
independent of the paused flag. -/
theorem wants_read_write_contract (st : VoiceClient) (h : 0 ≤ st.fd) :
    (WantWrite st = st.fd ↔ (st.outbuf ≠ [] ∧ st.paused = false))
    ∧ (st.paused = true → WantWrite st = -1)
    ∧ (WantRead st = st.fd ↔ st.connected = true)
    ∧ (∀ b, WantRead (pause_audio st b) = WantRead st) := by
  refine ⟨?_, ?_, ?_, fun b => rfl⟩
  · cases hp : st.paused <;> cases hb : st.outbuf <;>
      simp [WantWrite, hp, hb] <;> omega
  · intro hp
    simp [WantWrite, hp]
  · cases hc : st.connected <;> simp [WantRead, hc] <;> omega

theorem wants_read_write_contract_witness :
    (WantWrite { init_state with fd := 3, connected := true, outbuf := [[9]] }
          = ({ init_state with fd := 3, connected := true, outbuf := [[9]] } : VoiceClient).fd
        ↔ (({ init_state with fd := 3, connected := true, outbuf := [[9]] } : VoiceClient).outbuf ≠ []
            ∧ ({ init_state with fd := 3, connected := true, outbuf := [[9]] } : VoiceClient).paused = false))
    ∧ (({ init_state with fd := 3, connected := true, outbuf := [[9]] } : VoiceClient).paused = true
        → WantWrite { init_state with fd := 3, connected := true, outbuf := [[9]] } = -1)
    ∧ (WantRead { init_state with fd := 3, connected := true, outbuf := [[9]] }
          = ({ init_state with fd := 3, connected := true, outbuf := [[9]] } : VoiceClient).fd
        ↔ ({ init_state with fd := 3, connected := true, outbuf := [[9]] } : VoiceClient).connected = true)
    ∧ (∀ b, WantRead (pause_audio { init_state with fd := 3, connected := true, outbuf := [[9]] } b)
        = WantRead { init_state with fd := 3, connected := true, outbuf := [[9]] }) :=
  wants_read_write_contract { init_state with fd := 3, connected := true, outbuf := [[9]] }
    (by decide)

/-- Claim C9: QueueMessage with to_front set places the message at the
head of the control-message queue, ahead of every previously queued
message, and with the default to_front false it places the message at the
tail, after every previously queued message. -/
theorem queue_message_ordering (st : VoiceClient) (x y : String) :
    (QueueMessage st x true).message_queue = x :: st.message_queue
    ∧ (QueueMessage st y false).message_queue = st.message_queue ++ [y] := by
  simp [QueueMessage]

/-- Claim C5: on any buffer state with zero track markers,
skip_to_next_marker is behaviourally equivalent to stop_audio: the two
calls produce the same state, the outbound buffer is empty afterwards,
get_tracks_remaining returns 0 after either call, and both calls leave
the paused flag alone (they are valid while the stream is paused). -/
theorem skip_without_marker_is_stop (st : VoiceClient)
    (h : countMarkers st.outbuf = 0) :
    skip_to_next_marker st = stop_audio st
    ∧ (skip_to_next_marker st).outbuf = []
    ∧ get_tracks_remaining (skip_to_next_marker st) = 0
    ∧ get_tracks_remaining (stop_audio st) = 0
    ∧ (skip_to_next_marker st).paused = st.paused
    ∧ (stop_audio st).paused = st.paused := by
  have hdw : st.outbuf.dropWhile (fun e => !is_track_marker e) = [] :=
    countP_zero_dropWhile is_track_marker st.outbuf h
  have heq : skip_to_next_marker st = stop_audio st := by
    simp [skip_to_next_marker, hdw]
  refine ⟨heq, ?_, ?_, ?_, ?_, rfl⟩ <;>
    simp [heq, stop_audio, get_tracks_remaining]

theorem skip_without_marker_is_stop_witness :
    skip_to_next_marker { init_state with outbuf := [[1], [2]], tracks := 0 }
        = stop_audio { init_state with outbuf := [[1], [2]], tracks := 0 }
    ∧ (skip_to_next_marker { init_state with outbuf := [[1], [2]], tracks := 0 }).outbuf = []
    ∧ get_tracks_remaining
        (skip_to_next_marker { init_state with outbuf := [[1], [2]], tracks := 0 }) = 0
    ∧ get_tracks_remaining
        (stop_audio { init_state with outbuf := [[1], [2]], tracks := 0 }) = 0
    ∧ (skip_to_next_marker { init_state with outbuf := [[1], [2]], tracks := 0 }).paused
        = ({ init_state with outbuf := [[1], [2]], tracks := 0 } : VoiceClient).paused
    ∧ (stop_audio { init_state with outbuf := [[1], [2]], tracks := 0 }).paused
        = ({ init_state with outbuf := [[1], [2]], tracks := 0 } : VoiceClient).paused :=
  skip_without_marker_is_stop { init_state with outbuf := [[1], [2]], tracks := 0 }
    (by decide)

/-- Claim C6: on every buffer state reachable through the audio-buffer
operations, get_tracks_remaining returns 0 when the outbound buffer is
empty and otherwise returns the number of track markers currently in the
buffer plus 1. -/
theorem get_tracks_remaining_counts_markers (st : VoiceClient)
    (h : BufReachable st) :
    get_tracks_remaining st
      = if st.outbuf = [] then 0 else countMarkers st.outbuf + 1 := by
  have hinv := bufReachable_marker_count st h
  cases hb : st.outbuf with
  | nil => simp [get_tracks_remaining, hb]
  | cons x xs =>
    rw [hb] at hinv
    simp [get_tracks_remaining, hb, hinv]

theorem get_tracks_remaining_counts_markers_witness :
    get_tracks_remaining init_state
      = if init_state.outbuf = [] then 0 else countMarkers init_state.outbuf + 1 :=
  get_tracks_remaining_counts_markers init_state BufReachable.init

/-- Claim C10: track markers are represented in-band in the outbound
packet buffer as sentinel entries carrying the reserved 16-bit
AUDIO_TRACK_MARKER value 0xFFFF, distinguished from real RTP packets by
inspection of the buffer entry itself, and on every state reachable
through the enqueue, skip and clear operations the tracks counter equals
the number of such sentinel entries in the buffer, each single operation
preserving that equality. -/
theorem track_marker_in_band_representation (st : VoiceClient) (meta : String)
    (h : BufReachable st) :
    (insert_marker st meta).outbuf = st.outbuf ++ [track_marker_entry]
    ∧ track_marker_entry = [AUDIO_TRACK_MARKER % 256, AUDIO_TRACK_MARKER / 256]
    ∧ is_track_marker track_marker_entry = true
    ∧ (∀ seq ts ssrc payload, is_track_marker (rtp_packet seq ts ssrc payload) = false)
    ∧ st.tracks = countMarkers st.outbuf
    ∧ (∀ s1 s2 : VoiceClient, BufStep s1 s2 → s1.tracks = countMarkers s1.outbuf
        → s2.tracks = countMarkers s2.outbuf) :=
  ⟨rfl, rfl, by decide, fun s t c p => rtp_packet_not_marker s t c p,
    bufReachable_marker_count st h,
    fun s1 s2 hs h1 => bufStep_preserves_marker_count s1 s2 hs h1⟩

theorem track_marker_in_band_representation_witness :
    (insert_marker init_state "intro").outbuf = init_state.outbuf ++ [track_marker_entry]
    ∧ track_marker_entry = [AUDIO_TRACK_MARKER % 256, AUDIO_TRACK_MARKER / 256]
    ∧ is_track_marker track_marker_entry = true
    ∧ (∀ seq ts ssrc payload, is_track_marker (rtp_packet seq ts ssrc payload) = false)
    ∧ init_state.tracks = countMarkers init_state.outbuf
    ∧ (∀ s1 s2 : VoiceClient, BufStep s1 s2 → s1.tracks = countMarkers s1.outbuf
        → s2.tracks = countMarkers s2.outbuf) :=
  track_marker_in_band_representation init_state "intro" BufReachable.init

/-- Claim C7: is_ready returns true exactly when the secret key is
present: it is false in the initial state before a key has been set, true
immediately after the key is stored, stays true across every further
non-terminating session operation, and only termination releases the
key. -/
theorem is_ready_tracks_secret_key :
    (∀ st : VoiceClient, is_ready st = st.secret_key.isSome)
    ∧ is_ready init_state = false
    ∧ (∀ st k, is_ready (set_secret_key st k) = true)
    ∧ (∀ st st' : VoiceClient, Step st st' → is_ready st = true → is_ready st' = true)
    ∧ (∀ st, is_ready (terminate st) = false) := by
  refine ⟨fun st => rfl, rfl, fun st k => rfl, ?_, fun st => rfl⟩
  intro st st' hs hr
  cases hs with
  | buf x hb =>
    rw [is_ready, bufStep_secret_key st st' hb]
    exact hr
  | queue j f =>
    by_cases hf : f = true <;> simpa [is_ready, QueueMessage, hf] using hr
  | write o =>
    cases hb : st.outbuf with
    | nil => simpa [is_ready, WriteReady, hb] using hr
    | cons p rest => cases o <;> simpa [is_ready, WriteReady, hb] using hr
  | key k => rfl

theorem is_ready_tracks_secret_key_witness :
    is_ready init_state = false
    ∧ is_ready (set_secret_key init_state (List.replicate 32 0)) = true
    ∧ is_ready (QueueMessage (set_secret_key init_state (List.replicate 32 0)) "hb" false)
        = true :=
  ⟨is_ready_tracks_secret_key.2.1,
   is_ready_tracks_secret_key.2.2.1 init_state (List.replicate 32 0),
   is_ready_tracks_secret_key.2.2.2.1 (set_secret_key init_state (List.replicate 32 0))
     (QueueMessage (set_secret_key init_state (List.replicate 32 0)) "hb" false)
     (Step.queue (set_secret_key init_state (List.replicate 32 0)) "hb" false)
     (is_ready_tracks_secret_key.2.2.1 init_state (List.replicate 32 0))⟩

/-- Claim C8: the sending flag transitions from false to true on a
successful send_audio append; along any trace of session operations the
number of emitted urgent speaking control messages equals the number of
false-to-true transitions of the flag (exactly one per transition, none
while the flag stays true); each emission places the speaking message at
the head of the control queue; and stop_audio resets the flag to
false. -/
theorem speaking_once_per_rising_edge :
    (∀ st op, speaksOnStep st op = (!st.sending && (applyOp st op).sending))
    ∧ (∀ st ops, speakCount st ops = risingCount st ops)
    ∧ (∀ st op, speaksOnStep st op = true →
        (applyOp st op).message_queue = speaking_message :: st.message_queue)
    ∧ (∀ st a l u, send_audio_valid l = true → (send_audio st a l u).1.sending = true)
    ∧ (∀ st, (stop_audio st).sending = false) := by
  refine ⟨speaksOnStep_eq_rising, speakCount_eq_risingCount, ?_, ?_, fun st => rfl⟩
  · intro st op hsp
    cases op with
    | sendAudio a l u =>
      simp only [speaksOnStep, Bool.and_eq_true, Bool.not_eq_true'] at hsp
      obtain ⟨hv, hsnd⟩ := hsp
      simp [applyOp, send_audio, QueueMessage, hv, hsnd]
    | insertMarker m => simp [speaksOnStep] at hsp
    | stopAudio => simp [speaksOnStep] at hsp
    | skipMarker => simp [speaksOnStep] at hsp
    | pauseAudio b => simp [speaksOnStep] at hsp
    | queueMsg j f => simp [speaksOnStep] at hsp
    | writeReady o => simp [speaksOnStep] at hsp
    | setKey k => simp [speaksOnStep] at hsp
  · intro st a l u hv
    by_cases hsnd : st.sending = true <;> simp [send_audio, QueueMessage, hv, hsnd]

theorem speaking_once_per_rising_edge_witness :
    (applyOp init_state (VoiceOp.sendAudio [1, 2, 3, 4] 4 true)).message_queue
      = speaking_message :: init_state.message_queue :=
  speaking_once_per_rising_edge.2.2.1 init_state (VoiceOp.sendAudio [1, 2, 3, 4] 4 true)
    (by decide)

end DPP
